import Mathlib

/-!
Verification of the Defiesta Execution Kernel protocol, as documented by this
repository (journal and input wire formats, SHA-256 commitments, and the
on-chain verification state machine of the KernelVault reference contracts).

Bytes are modelled as natural numbers below 256, byte strings as `List Nat`.
All fixed-width integers are little-endian on the wire, per
docs/kernel/input-format.md and the journal-format document.
-/

set_option maxRecDepth 4096

/-- Little-endian encoding of `v` on exactly `k` bytes (low byte first),
as used for every fixed-width integer of the protocol. -/
def natLE : Nat → Nat → List Nat
  | 0, _ => []
  | k + 1, v => v % 256 :: natLE k (v / 256)

/-- Little-endian value of a byte string, mirroring the readU32LE and
readU64LE helpers of KernelOutputParser in docs/onchain/solidity-integration.md. -/
def readLE : List Nat → Nat
  | [] => 0
  | b :: bs => b + 256 * readLE bs

theorem natLE_length (k v : Nat) : (natLE k v).length = k := by
  induction k generalizing v with
  | zero => rfl
  | succ k ih => simp [natLE, ih]

theorem readLE_natLE (k v : Nat) (h : v < 256 ^ k) : readLE (natLE k v) = v := by
  induction k generalizing v with
  | zero =>
    simp [natLE, readLE]
    omega
  | succ k ih =>
    have hd : v / 256 < 256 ^ k := by
      have h2 : v < 256 * 256 ^ k := by
        have := pow_succ (256 : Nat) k
        omega
      exact Nat.div_lt_of_lt_mul h2
    simp [natLE, readLE, ih (v / 256) hd]
    omega

theorem drop_append_len {α : Type} (xs ys : List α) {n : Nat} (h : xs.length = n) :
    (xs ++ ys).drop n = ys := by
  subst h
  induction xs with
  | nil => rfl
  | cons a xs ih => simp [ih]

theorem take_append_len {α : Type} (xs ys : List α) {n : Nat} (h : xs.length = n) :
    (xs ++ ys).take n = xs := by
  subst h
  induction xs with
  | nil => rfl
  | cons a xs ih => simp [ih]

theorem drop_step {α : Type} {X : List α} {a b n : Nat} {xs U : List α}
    (hd : X.drop a = xs ++ U) (hx : xs.length = b) (hn : n = a + b) :
    X.drop n = U := by
  subst hn
  have h1 := congrArg (List.drop b) hd
  rw [List.drop_drop] at h1
  rw [h1, drop_append_len xs U hx]

/-- Every element of the string is a byte value. -/
def bytesWF (bs : List Nat) : Prop := ∀ b ∈ bs, b < 256

/-- The KernelJournalV1 structure, the public output of a kernel execution
(journal-format document, Structure Definition). -/
structure KernelJournal where
  protocolVersion : Nat
  kernelVersion : Nat
  agentId : List Nat
  agentCodeHash : List Nat
  constraintSetHash : List Nat
  inputRoot : List Nat
  executionNonce : Nat
  inputCommitment : List Nat
  actionCommitment : List Nat
  executionStatus : Nat
  deriving DecidableEq

/-- Field well-formedness for a journal: integers fit their wire width and
the opaque identifiers and digests are 32-byte strings. -/
def wfJournal (j : KernelJournal) : Prop :=
  j.protocolVersion < 256 ^ 4 ∧ j.kernelVersion < 256 ^ 4 ∧
  j.agentId.length = 32 ∧ j.agentCodeHash.length = 32 ∧
  j.constraintSetHash.length = 32 ∧ j.inputRoot.length = 32 ∧
  j.executionNonce < 256 ^ 8 ∧ j.inputCommitment.length = 32 ∧
  j.actionCommitment.length = 32 ∧ j.executionStatus < 256 ∧
  bytesWF j.agentId ∧ bytesWF j.agentCodeHash ∧ bytesWF j.constraintSetHash ∧
  bytesWF j.inputRoot ∧ bytesWF j.inputCommitment ∧ bytesWF j.actionCommitment

instance (j : KernelJournal) : Decidable (wfJournal j) := by
  unfold wfJournal bytesWF
  infer_instance

/-- The 209-byte binary layout of KernelJournalV1: fields at offsets
0, 4, 8, 40, 72, 104, 136, 144, 176, 208 (journal-format document, Binary
Layout table). -/
def encodeJournal (j : KernelJournal) : List Nat :=
  natLE 4 j.protocolVersion ++ (natLE 4 j.kernelVersion ++ (j.agentId ++
  (j.agentCodeHash ++ (j.constraintSetHash ++ (j.inputRoot ++
  (natLE 8 j.executionNonce ++ (j.inputCommitment ++
  (j.actionCommitment ++ [j.executionStatus]))))))))

/-- Rejection and revert reasons of the verification state machine, drawn
from the require statements of KernelOutputParser, KernelExecutionVerifier,
MyVault and KernelVault in the onchain docs. -/
inductive VaultError where
  | InvalidLength
  | ZeroImageId
  | InvalidProof
  | UnsupportedVersion
  | WrongAgent
  | StaleOrReplayedNonce
  | NonceGapTooLarge
  | AgentReportedFailure
  | ActionCommitmentMismatch
  | MalformedActionList
  | UnknownActionType (t : Nat)
  | CallFailed
  | TransferFailed
  deriving DecidableEq

/-- KernelOutputParser.parse (docs/onchain/solidity-integration.md): requires
the journal to be exactly 209 bytes, then reads each field at its fixed
offset; the length requirement is the only check it performs. -/
def parseJournal (bs : List Nat) : Except VaultError KernelJournal :=
  if bs.length = 209 then
    .ok {
      protocolVersion := readLE (bs.take 4)
      kernelVersion := readLE ((bs.drop 4).take 4)
      agentId := (bs.drop 8).take 32
      agentCodeHash := (bs.drop 40).take 32
      constraintSetHash := (bs.drop 72).take 32
      inputRoot := (bs.drop 104).take 32
      executionNonce := readLE ((bs.drop 136).take 8)
      inputCommitment := (bs.drop 144).take 32
      actionCommitment := (bs.drop 176).take 32
      executionStatus := readLE ((bs.drop 208).take 1) }
  else .error .InvalidLength

theorem encodeJournal_length (j : KernelJournal) (h : wfJournal j) :
    (encodeJournal j).length = 209 := by
  obtain ⟨_, _, ha, hach, hcsh, hir, _, hic, hac, _⟩ := h
  simp [encodeJournal, natLE_length, ha, hach, hcsh, hir, hic, hac]

theorem parseJournal_encodeJournal (j : KernelJournal) (h : wfJournal j) :
    parseJournal (encodeJournal j) = .ok j := by
  have len209 := encodeJournal_length j h
  obtain ⟨hpv, hkv, ha, hach, hcsh, hir, hn, hic, hac, hst, _⟩ := h
  obtain ⟨pv, kv, aid, ach, csh, ir, nonce, ic, ac, st⟩ := j
  simp only at hpv hkv ha hach hcsh hir hn hic hac hst
  have eB : encodeJournal ⟨pv, kv, aid, ach, csh, ir, nonce, ic, ac, st⟩ =
      natLE 4 pv ++ (natLE 4 kv ++ (aid ++ (ach ++ (csh ++ (ir ++
      (natLE 8 nonce ++ (ic ++ (ac ++ [st])))))))) := rfl
  rw [eB] at len209
  set B := natLE 4 pv ++ (natLE 4 kv ++ (aid ++ (ach ++ (csh ++ (ir ++
      (natLE 8 nonce ++ (ic ++ (ac ++ [st])))))))) with hB
  have d4 : B.drop 4 = natLE 4 kv ++ (aid ++ (ach ++ (csh ++ (ir ++
      (natLE 8 nonce ++ (ic ++ (ac ++ [st]))))))) :=
    drop_append_len _ _ (natLE_length 4 pv)
  have d8 : B.drop 8 = aid ++ (ach ++ (csh ++ (ir ++
      (natLE 8 nonce ++ (ic ++ (ac ++ [st])))))) :=
    drop_step d4 (natLE_length 4 kv) rfl
  have d40 : B.drop 40 = ach ++ (csh ++ (ir ++
      (natLE 8 nonce ++ (ic ++ (ac ++ [st]))))) :=
    drop_step d8 ha rfl
  have d72 : B.drop 72 = csh ++ (ir ++ (natLE 8 nonce ++ (ic ++ (ac ++ [st])))) :=
    drop_step d40 hach rfl
  have d104 : B.drop 104 = ir ++ (natLE 8 nonce ++ (ic ++ (ac ++ [st]))) :=
    drop_step d72 hcsh rfl
  have d136 : B.drop 136 = natLE 8 nonce ++ (ic ++ (ac ++ [st])) :=
    drop_step d104 hir rfl
  have d144 : B.drop 144 = ic ++ (ac ++ [st]) :=
    drop_step d136 (natLE_length 8 nonce) rfl
  have d176 : B.drop 176 = ac ++ [st] :=
    drop_step d144 hic rfl
  have d208 : B.drop 208 = [st] :=
    drop_step d176 hac rfl
  have f1 : readLE (B.take 4) = pv := by
    rw [hB, take_append_len _ _ (natLE_length 4 pv)]
    exact readLE_natLE 4 pv hpv
  have f2 : readLE ((B.drop 4).take 4) = kv := by
    rw [d4, take_append_len _ _ (natLE_length 4 kv)]
    exact readLE_natLE 4 kv hkv
  have f3 : (B.drop 8).take 32 = aid := by
    rw [d8, take_append_len _ _ ha]
  have f4 : (B.drop 40).take 32 = ach := by
    rw [d40, take_append_len _ _ hach]
  have f5 : (B.drop 72).take 32 = csh := by
    rw [d72, take_append_len _ _ hcsh]
  have f6 : (B.drop 104).take 32 = ir := by
    rw [d104, take_append_len _ _ hir]
  have f7 : readLE ((B.drop 136).take 8) = nonce := by
    rw [d136, take_append_len _ _ (natLE_length 8 nonce)]
    exact readLE_natLE 8 nonce hn
  have f8 : (B.drop 144).take 32 = ic := by
    rw [d144, take_append_len _ _ hic]
  have f9 : (B.drop 176).take 32 = ac := by
    rw [d176, take_append_len _ _ hac]
  have f10 : readLE ((B.drop 208).take 1) = st := by
    rw [d208]
    simp [readLE]
  unfold parseJournal
  rw [eB]
  rw [if_pos len209]
  simp only [Except.ok.injEq, KernelJournal.mk.injEq]
  exact ⟨f1, f2, f3, f4, f5, f6, f7, f8, f9, f10⟩

theorem parseJournal_invalidLength (bs : List Nat) (h : bs.length ≠ 209) :
    parseJournal bs = .error .InvalidLength := by
  unfold parseJournal
  rw [if_neg h]

/-- Big-endian encoding of `v` on exactly `k` bytes, used by SHA-256 for its
length field and word serialization. -/
def natBE (k v : Nat) : List Nat := (natLE k v).reverse

namespace Sha2

/-- Truncating 32-bit addition. -/
def wadd (a b : Nat) : Nat := (a + b) % 4294967296

/-- Right rotation of a 32-bit word. -/
def rotr (n x : Nat) : Nat := ((x >>> n) ||| (x <<< (32 - n))) % 4294967296

/-- Logical right shift. -/
def shr (n x : Nat) : Nat := x >>> n

/-- Big sigma 0 function of the SHA-256 compression. -/
def bsig0 (x : Nat) : Nat := rotr 2 x ^^^ rotr 13 x ^^^ rotr 22 x

/-- Big sigma 1 function of the SHA-256 compression. -/
def bsig1 (x : Nat) : Nat := rotr 6 x ^^^ rotr 11 x ^^^ rotr 25 x

/-- Small sigma 0 function of the SHA-256 message schedule. -/
def ssig0 (x : Nat) : Nat := rotr 7 x ^^^ rotr 18 x ^^^ shr 3 x

/-- Small sigma 1 function of the SHA-256 message schedule. -/
def ssig1 (x : Nat) : Nat := rotr 17 x ^^^ rotr 19 x ^^^ shr 10 x

/-- SHA-256 choice function. -/
def chf (x y z : Nat) : Nat := (x &&& y) ^^^ ((x ^^^ 4294967295) &&& z)

/-- SHA-256 majority function. -/
def majf (x y z : Nat) : Nat := (x &&& y) ^^^ (x &&& z) ^^^ (y &&& z)

/-- The 64 SHA-256 round constants. -/
def K : List Nat :=
  [1116352408, 1899447441, 3049323471, 3921009573, 961987163, 1508970993,
   2453635748, 2870763221, 3624381080, 310598401, 607225278, 1426881987,
   1925078388, 2162078206, 2614888103, 3248222580, 3835390401, 4022224774,
   264347078, 604807628, 770255983, 1249150122, 1555081692, 1996064986,
   2554220882, 2821834349, 2952996808, 3210313671, 3336571891, 3584528711,
   113926993, 338241895, 666307205, 773529912, 1294757372, 1396182291,
   1695183700, 1986661051, 2177026350, 2456956037, 2730485921, 2820302411,
   3259730800, 3345764771, 3516065817, 3600352804, 4094571909, 275423344,
   430227734, 506948616, 659060556, 883997877, 958139571, 1322822218,
   1537002063, 1747873779, 1955562222, 2024104815, 2227730452, 2361852424,
   2428436474, 2756734187, 3204031479, 3329325298]

/-- The SHA-256 initial hash value. -/
def H0 : List Nat :=
  [1779033703, 3144134277, 1013904242, 2773480762,
   1359893119, 2600822924, 528734635, 1541459225]

/-- SHA-256 padding: append 0x80, then zeros up to 56 mod 64, then the
bit length on 8 big-endian bytes. -/
def padMessage (msg : List Nat) : List Nat :=
  msg ++ [128] ++ List.replicate ((64 - (msg.length + 9) % 64) % 64) 0 ++
    natBE 8 (8 * msg.length)

/-- Group bytes into big-endian 32-bit words. -/
def toWordsBE : List Nat → List Nat
  | a :: b :: c :: d :: rest => (((a * 256 + b) * 256 + c) * 256 + d) :: toWordsBE rest
  | _ => []

/-- Serialize 32-bit words as big-endian bytes. -/
def wordsToBytesBE : List Nat → List Nat
  | [] => []
  | w :: ws => natBE 4 w ++ wordsToBytesBE ws

/-- Extend the 16 block words by `n` more message-schedule words. -/
def schedRounds : Nat → List Nat → List Nat
  | 0, ws => ws
  | n + 1, ws =>
    let t := ws.length
    let w := wadd (wadd (ssig1 (ws.getD (t - 2) 0)) (ws.getD (t - 7) 0))
                  (wadd (ssig0 (ws.getD (t - 15) 0)) (ws.getD (t - 16) 0))
    schedRounds n (ws ++ [w])

/-- The full 64-word message schedule of one block. -/
def schedule (ws : List Nat) : List Nat := schedRounds 48 ws

/-- One SHA-256 round on the eight-word working state. -/
def roundStep (st : List Nat) (kw : Nat × Nat) : List Nat :=
  match st with
  | [a, b, c, d, e, f, g, h] =>
    let t1 := wadd (wadd (wadd h (bsig1 e)) (wadd (chf e f g) kw.1)) kw.2
    let t2 := wadd (bsig0 a) (majf a b c)
    [wadd t1 t2, a, b, c, wadd d t1, e, f, g]
  | other => other

/-- Compress one 16-word block into the running hash. -/
def compressBlock (hs ws : List Nat) : List Nat :=
  let fin := (List.zip K (schedule ws)).foldl roundStep hs
  List.zipWith wadd hs fin

/-- Fold the compression over every 16-word block of the padded message. -/
def processWords : List Nat → List Nat → List Nat
  | hs, w0 :: w1 :: w2 :: w3 :: w4 :: w5 :: w6 :: w7 :: w8 :: w9 :: w10 :: w11 ::
        w12 :: w13 :: w14 :: w15 :: rest =>
    processWords
      (compressBlock hs [w0, w1, w2, w3, w4, w5, w6, w7, w8, w9, w10, w11, w12, w13, w14, w15])
      rest
  | hs, _ => hs

end Sha2

/-- SHA-256 digest of a byte string, the commitment function of the protocol
(input_commitment and action_commitment are SHA-256 of encoded bytes, per the
journal-format document). -/
def sha256 (msg : List Nat) : List Nat :=
  Sha2.wordsToBytesBE (Sha2.processWords Sha2.H0 (Sha2.toWordsBE (Sha2.padMessage msg)))

/-- Sanity check of the SHA-256 embedding against the well-known digest of
the empty message. -/
theorem sha256_nil_digest : sha256 [] =
    [0xe3, 0xb0, 0xc4, 0x42, 0x98, 0xfc, 0x1c, 0x14, 0x9a, 0xfb, 0xf4, 0xc8,
     0x99, 0x6f, 0xb9, 0x24, 0x27, 0xae, 0x41, 0xe4, 0x64, 0x9b, 0x93, 0x4c,
     0xa4, 0x95, 0x99, 0x1b, 0x78, 0x52, 0xb8, 0x55] := by decide

/-- The protocol-wide empty-output commitment constant
df3f619804a92fdb4057192dc43dd748ea778adc52bc498ce80524c014b81119
(journal-format document, Empty Output Commitment). -/
def EMPTY_OUTPUT_COMMITMENT : List Nat :=
  [0xdf, 0x3f, 0x61, 0x98, 0x04, 0xa9, 0x2f, 0xdb, 0x40, 0x57, 0x19, 0x2d,
   0xc4, 0x3d, 0xd7, 0x48, 0xea, 0x77, 0x8a, 0xdc, 0x52, 0xbc, 0x49, 0x8c,
   0xe8, 0x05, 0x24, 0xc0, 0x14, 0xb8, 0x11, 0x19]

/-- An agent action: type tag, 32-byte target, variable payload
(AgentOutputParser.ActionV1 in docs/onchain/solidity-integration.md). -/
structure ActionV1 where
  actionType : Nat
  target : List Nat
  payload : List Nat
  deriving DecidableEq

/-- Generic external call with value. -/
def ACTION_TYPE_CALL : Nat := 0x00000002

/-- Bounded ERC-20 asset transfer. -/
def ACTION_TYPE_TRANSFER_ERC20 : Nat := 0x00000003

/-- No-op action tag. -/
def ACTION_TYPE_NO_OP : Nat := 0x00000004

/-- Per-action wire encoding: 4-byte total length, 4-byte action type,
32-byte target, 4-byte payload length, payload (action list wire format). -/
def encodeAction (a : ActionV1) : List Nat :=
  natLE 4 (40 + a.payload.length) ++ natLE 4 a.actionType ++ a.target ++
  natLE 4 a.payload.length ++ a.payload

/-- Canonical AgentOutput encoding: 4-byte little-endian action count followed
by each encoded action. The empty list encodes to four zero bytes. -/
def encodeAgentOutput (acts : List ActionV1) : List Nat :=
  natLE 4 acts.length ++ (acts.map encodeAction).foldr (· ++ ·) []

/-- Decode `n` consecutive actions, mirroring the loop of
AgentOutputParser.parseActions: read and skip the 4-byte action length, then
action type, target, payload length and payload; out-of-range reads revert. -/
def parseActionsAux : Nat → List Nat → Except VaultError (List ActionV1)
  | 0, _ => .ok []
  | n + 1, bs =>
    if bs.length < 44 then .error .MalformedActionList
    else
      let aty := readLE ((bs.drop 4).take 4)
      let tgt := (bs.drop 8).take 32
      let plen := readLE ((bs.drop 40).take 4)
      if bs.length < 44 + plen then .error .MalformedActionList
      else
        match parseActionsAux n (bs.drop (44 + plen)) with
        | .error e => .error e
        | .ok rest => .ok (⟨aty, tgt, (bs.drop 44).take plen⟩ :: rest)

/-- AgentOutputParser.parseActions: 4-byte little-endian action count, then
the actions in order. -/
def parseActions (bs : List Nat) : Except VaultError (List ActionV1) :=
  if bs.length < 4 then .error .MalformedActionList
  else parseActionsAux (readLE (bs.take 4)) (bs.drop 4)

theorem encodeAgentOutput_nil : encodeAgentOutput [] = [0, 0, 0, 0] := by decide

/-- The digest of the canonically encoded empty action list is the constant
the protocol publishes; shared by the journal sentinel and the verifiers. -/
theorem sha256_emptyOutput : sha256 (encodeAgentOutput []) = EMPTY_OUTPUT_COMMITMENT := by
  decide

/-- The KernelInputV1 structure (docs/kernel/input-format.md); the
`agentInputs` field embeds `opaque_agent_inputs`. -/
structure KernelInput where
  protocolVersion : Nat
  kernelVersion : Nat
  agentId : List Nat
  agentCodeHash : List Nat
  constraintSetHash : List Nat
  inputRoot : List Nat
  executionNonce : Nat
  agentInputs : List Nat
  deriving DecidableEq

/-- Structural decode errors of the canonical codec
(docs/kernel/input-format.md, Validation Rules). -/
inductive CodecError where
  | TruncatedInput
  | InvalidVersion
  | InputTooLarge
  | InvalidLength
  deriving DecidableEq

/-- Wire format version constant; KernelInputV1 and KernelJournalV1 carry it. -/
def PROTOCOL_VERSION : Nat := 1

/-- Kernel semantics version constant. -/
def KERNEL_VERSION : Nat := 1

/-- Maximum size of the agent input payload in bytes. -/
def MAX_AGENT_INPUT_BYTES : Nat := 64000

/-- Valid KernelInputV1 values: the versions equal the supported constants,
identifiers are 32-byte strings, integers fit their width and the payload is
bounded (docs/kernel/input-format.md). -/
def wfInput (x : KernelInput) : Prop :=
  x.protocolVersion = PROTOCOL_VERSION ∧ x.kernelVersion = KERNEL_VERSION ∧
  x.agentId.length = 32 ∧ x.agentCodeHash.length = 32 ∧
  x.constraintSetHash.length = 32 ∧ x.inputRoot.length = 32 ∧
  x.executionNonce < 256 ^ 8 ∧ x.agentInputs.length ≤ MAX_AGENT_INPUT_BYTES ∧
  bytesWF x.agentId ∧ bytesWF x.agentCodeHash ∧ bytesWF x.constraintSetHash ∧
  bytesWF x.inputRoot ∧ bytesWF x.agentInputs

instance (x : KernelInput) : Decidable (wfInput x) := by
  unfold wfInput bytesWF
  infer_instance

/-- KernelInputV1 binary layout: 144-byte fixed header, then a 4-byte
little-endian length and the raw payload (input-format Binary Layout table). -/
def encodeKernelInput (x : KernelInput) : List Nat :=
  natLE 4 x.protocolVersion ++ (natLE 4 x.kernelVersion ++ (x.agentId ++
  (x.agentCodeHash ++ (x.constraintSetHash ++ (x.inputRoot ++
  (natLE 8 x.executionNonce ++ (natLE 4 x.agentInputs.length ++ x.agentInputs)))))))

/-- KernelInputV1 decoder, enforcing the validation rules of
docs/kernel/input-format.md: version equality, the 64,000-byte payload bound,
and no trailing bytes. -/
def decodeKernelInput (bs : List Nat) : Except CodecError KernelInput :=
  if bs.length < 148 then .error .TruncatedInput
  else if readLE (bs.take 4) = PROTOCOL_VERSION ∧
      readLE ((bs.drop 4).take 4) = KERNEL_VERSION then
    if readLE ((bs.drop 144).take 4) ≤ MAX_AGENT_INPUT_BYTES then
      if bs.length = 148 + readLE ((bs.drop 144).take 4) then
        .ok {
          protocolVersion := readLE (bs.take 4)
          kernelVersion := readLE ((bs.drop 4).take 4)
          agentId := (bs.drop 8).take 32
          agentCodeHash := (bs.drop 40).take 32
          constraintSetHash := (bs.drop 72).take 32
          inputRoot := (bs.drop 104).take 32
          executionNonce := readLE ((bs.drop 136).take 8)
          agentInputs := (bs.drop 148).take (readLE ((bs.drop 144).take 4)) }
      else .error .InvalidLength
    else .error .InputTooLarge
  else .error .InvalidVersion

theorem encodeKernelInput_length (x : KernelInput) (h : wfInput x) :
    (encodeKernelInput x).length = 148 + x.agentInputs.length := by
  obtain ⟨_, _, ha, hach, hcsh, hir, _⟩ := h
  simp [encodeKernelInput, natLE_length, ha, hach, hcsh, hir]
  omega

theorem decodeKernelInput_encodeKernelInput (x : KernelInput) (h : wfInput x) :
    decodeKernelInput (encodeKernelInput x) = .ok x := by
  have hlen := encodeKernelInput_length x h
  obtain ⟨hpv, hkv, ha, hach, hcsh, hir, hn, hpl, _⟩ := h
  obtain ⟨pv, kv, aid, ach, csh, ir, nonce, pl⟩ := x
  simp only at hpv hkv ha hach hcsh hir hn hpl
  have eB : encodeKernelInput ⟨pv, kv, aid, ach, csh, ir, nonce, pl⟩ =
      natLE 4 pv ++ (natLE 4 kv ++ (aid ++ (ach ++ (csh ++ (ir ++
      (natLE 8 nonce ++ (natLE 4 pl.length ++ pl))))))) := rfl
  rw [eB] at hlen
  simp only at hlen
  set B := natLE 4 pv ++ (natLE 4 kv ++ (aid ++ (ach ++ (csh ++ (ir ++
      (natLE 8 nonce ++ (natLE 4 pl.length ++ pl))))))) with hB
  have d4 : B.drop 4 = natLE 4 kv ++ (aid ++ (ach ++ (csh ++ (ir ++
      (natLE 8 nonce ++ (natLE 4 pl.length ++ pl)))))) :=
    drop_append_len _ _ (natLE_length 4 pv)
  have d8 : B.drop 8 = aid ++ (ach ++ (csh ++ (ir ++
      (natLE 8 nonce ++ (natLE 4 pl.length ++ pl))))) :=
    drop_step d4 (natLE_length 4 kv) rfl
  have d40 : B.drop 40 = ach ++ (csh ++ (ir ++
      (natLE 8 nonce ++ (natLE 4 pl.length ++ pl)))) :=
    drop_step d8 ha rfl
  have d72 : B.drop 72 = csh ++ (ir ++ (natLE 8 nonce ++ (natLE 4 pl.length ++ pl))) :=
    drop_step d40 hach rfl
  have d104 : B.drop 104 = ir ++ (natLE 8 nonce ++ (natLE 4 pl.length ++ pl)) :=
    drop_step d72 hcsh rfl
  have d136 : B.drop 136 = natLE 8 nonce ++ (natLE 4 pl.length ++ pl) :=
    drop_step d104 hir rfl
  have d144 : B.drop 144 = natLE 4 pl.length ++ pl :=
    drop_step d136 (natLE_length 8 nonce) rfl
  have d148 : B.drop 148 = pl :=
    drop_step d144 (natLE_length 4 pl.length) rfl
  have hplen : pl.length < 256 ^ 4 := by
    have hm : MAX_AGENT_INPUT_BYTES = 64000 := rfl
    rw [hm] at hpl
    omega
  have f1 : readLE (B.take 4) = pv := by
    rw [hB, take_append_len _ _ (natLE_length 4 pv)]
    refine readLE_natLE 4 pv ?_
    rw [hpv]
    norm_num [PROTOCOL_VERSION]
  have f2 : readLE ((B.drop 4).take 4) = kv := by
    rw [d4, take_append_len _ _ (natLE_length 4 kv)]
    refine readLE_natLE 4 kv ?_
    rw [hkv]
    norm_num [KERNEL_VERSION]
  have f3 : (B.drop 8).take 32 = aid := by
    rw [d8, take_append_len _ _ ha]
  have f4 : (B.drop 40).take 32 = ach := by
    rw [d40, take_append_len _ _ hach]
  have f5 : (B.drop 72).take 32 = csh := by
    rw [d72, take_append_len _ _ hcsh]
  have f6 : (B.drop 104).take 32 = ir := by
    rw [d104, take_append_len _ _ hir]
  have f7 : readLE ((B.drop 136).take 8) = nonce := by
    rw [d136, take_append_len _ _ (natLE_length 8 nonce)]
    exact readLE_natLE 8 nonce hn
  have fplen : readLE ((B.drop 144).take 4) = pl.length := by
    rw [d144, take_append_len _ _ (natLE_length 4 pl.length)]
    exact readLE_natLE 4 pl.length hplen
  have f8 : (B.drop 148).take (readLE ((B.drop 144).take 4)) = pl := by
    rw [fplen, d148]
    exact List.take_length pl
  unfold decodeKernelInput
  rw [eB]
  rw [if_neg (by omega)]
  rw [if_pos ⟨f1.trans hpv, f2.trans hkv⟩]
  rw [if_pos (by rw [fplen]; exact hpl)]
  rw [if_pos (by rw [fplen]; exact hlen)]
  simp only [Except.ok.injEq, KernelInput.mk.injEq]
  exact ⟨f1, f2, f3, f4, f5, f6, f7, f8⟩

/-- The proof-verification oracle: `verify(seal, imageId, journalHash)`
returning accept or reject (RISC Zero router, treated as opaque). -/
def ProofOracle : Type := List Nat → Nat → List Nat → Bool

/-- Immutable per-vault deployment data: the pinned image id and the bound
agent id (KernelVault state variables in docs/onchain/verifier-overview.md). -/
structure VaultConfig where
  trustedImageId : Nat
  boundAgentId : List Nat
  deriving DecidableEq

/-- The MyVault constructor (docs/onchain/solidity-integration.md): requires
a nonzero trustedImageId, then pins it and the agent id immutably. -/
def mkVault (agentId : List Nat) (trustedImageId : Nat) :
    Except VaultError VaultConfig :=
  if trustedImageId = 0 then .error .ZeroImageId
  else .ok ⟨trustedImageId, agentId⟩

/-- KernelExecutionVerifier.verifyAndParseWithImageId
(docs/onchain/verifier-overview.md): validates the expected image id is not
zero, parses the 209-byte journal, hashes the journal bytes with SHA-256 and
calls the proof oracle; returns the parsed journal only if the oracle accepts. -/
def verifyAndParseWithImageId (imageId : Nat) (journal sealB : List Nat)
    (oracle : ProofOracle) : Except VaultError KernelJournal :=
  if imageId = 0 then .error .ZeroImageId
  else
    match parseJournal journal with
    | .error e => .error e
    | .ok p =>
      if oracle sealB imageId (sha256 journal) then .ok p
      else .error .InvalidProof

/-- Mutable on-chain state of one vault instance: the replay-protection
nonce plus the observable effects performed so far (each successfully
executed action is appended to the log). -/
structure VaultState where
  lastExecutionNonce : Nat
  log : List ActionV1
  deriving DecidableEq

/-- KernelVault action dispatcher (docs/onchain/verifier-overview.md):
a Call action runs the external call, a TransferERC20 action runs the token
transfer, and any other action type reverts with UnknownActionType. The
success of the two effectful handlers is an environment oracle. -/
def vaultDispatchAction (callOk transferOk : ActionV1 → Bool) (a : ActionV1) :
    Except VaultError Unit :=
  if a.actionType = ACTION_TYPE_CALL then
    if callOk a then .ok () else .error .CallFailed
  else if a.actionType = ACTION_TYPE_TRANSFER_ERC20 then
    if transferOk a then .ok () else .error .TransferFailed
  else .error (.UnknownActionType a.actionType)

/-- Execute the decoded actions strictly in order; the first failing action
aborts the whole batch with its revert reason. -/
def runActions (callOk transferOk : ActionV1 → Bool) :
    VaultState → List ActionV1 → Except VaultError VaultState
  | st, [] => .ok st
  | st, a :: rest =>
    match vaultDispatchAction callOk transferOk a with
    | .ok _ => runActions callOk transferOk { st with log := st.log ++ [a] } rest
    | .error e => .error e

/-- The check sequence of MyVault.execute before any action runs: proof
verification with the pinned image id, protocol and kernel version equality,
bound agent identity, strict nonce monotonicity with a gap limit of 100, a
Success execution status, and the action commitment binding
sha256(agentOutput) (docs/onchain/solidity-integration.md). -/
def vaultChecks (cfg : VaultConfig) (oracle : ProofOracle) (st : VaultState)
    (journal sealB agentOutput : List Nat) : Except VaultError KernelJournal :=
  match verifyAndParseWithImageId cfg.trustedImageId journal sealB oracle with
  | .error e => .error e
  | .ok p =>
    if p.protocolVersion ≠ PROTOCOL_VERSION then .error .UnsupportedVersion
    else if p.kernelVersion ≠ KERNEL_VERSION then .error .UnsupportedVersion
    else if p.agentId ≠ cfg.boundAgentId then .error .WrongAgent
    else if p.executionNonce ≤ st.lastExecutionNonce then .error .StaleOrReplayedNonce
    else if st.lastExecutionNonce + 100 < p.executionNonce then .error .NonceGapTooLarge
    else if p.executionStatus ≠ 1 then .error .AgentReportedFailure
    else if sha256 agentOutput ≠ p.actionCommitment then .error .ActionCommitmentMismatch
    else .ok p

/-- MyVault.execute (docs/onchain/solidity-integration.md): run every check,
update lastExecutionNonce before any action runs, then parse and execute the
actions in order; every error reverts the call. -/
def vaultExecute (cfg : VaultConfig) (oracle : ProofOracle)
    (callOk transferOk : ActionV1 → Bool) (st : VaultState)
    (journal sealB agentOutput : List Nat) : Except VaultError VaultState :=
  match vaultChecks cfg oracle st journal sealB agentOutput with
  | .error e => .error e
  | .ok p =>
    match parseActions agentOutput with
    | .error _ => .error .MalformedActionList
    | .ok acts =>
      runActions callOk transferOk
        { st with lastExecutionNonce := p.executionNonce } acts

/-- Transaction-level semantics of an execute call: on any revert the EVM
rolls the whole submission back, so the observable state is unchanged. -/
def vaultTransact (cfg : VaultConfig) (oracle : ProofOracle)
    (callOk transferOk : ActionV1 → Bool) (st : VaultState)
    (journal sealB agentOutput : List Nat) : VaultState :=
  match vaultExecute cfg oracle callOk transferOk st journal sealB agentOutput with
  | .ok st2 => st2
  | .error _ => st

theorem verifyAndParse_ok_inv {imageId : Nat} {journal sealB : List Nat}
    {oracle : ProofOracle} {p : KernelJournal}
    (h : verifyAndParseWithImageId imageId journal sealB oracle = .ok p) :
    imageId ≠ 0 ∧ parseJournal journal = .ok p ∧
    oracle sealB imageId (sha256 journal) = true := by
  unfold verifyAndParseWithImageId at h
  by_cases h0 : imageId = 0
  · rw [if_pos h0] at h
    exact absurd h (by simp)
  · rw [if_neg h0] at h
    split at h
    next e heq => exact absurd h (by simp)
    next q heq =>
      split at h
      next ho =>
        cases h
        exact ⟨h0, heq, ho⟩
      next ho => exact absurd h (by simp)

theorem vaultChecks_ok_inv {cfg : VaultConfig} {oracle : ProofOracle}
    {st : VaultState} {journal sealB agentOutput : List Nat} {p : KernelJournal}
    (h : vaultChecks cfg oracle st journal sealB agentOutput = .ok p) :
    cfg.trustedImageId ≠ 0 ∧ parseJournal journal = .ok p ∧
    oracle sealB cfg.trustedImageId (sha256 journal) = true ∧
    p.protocolVersion = PROTOCOL_VERSION ∧ p.kernelVersion = KERNEL_VERSION ∧
    p.agentId = cfg.boundAgentId ∧
    st.lastExecutionNonce < p.executionNonce ∧
    p.executionNonce ≤ st.lastExecutionNonce + 100 ∧
    p.executionStatus = 1 ∧ sha256 agentOutput = p.actionCommitment := by
  unfold vaultChecks at h
  split at h
  next e heq => exact absurd h (by simp)
  next q heq =>
    obtain ⟨h0, hp, ho⟩ := verifyAndParse_ok_inv heq
    split_ifs at h with c1 c2 c3 c4 c5 c6 c7
    cases h
    refine ⟨h0, hp, ho, by omega, by omega, not_not.mp c3, by omega, by omega,
      by omega, not_not.mp c7⟩

theorem vaultChecks_stale {cfg : VaultConfig} {oracle : ProofOracle}
    {st : VaultState} {journal sealB agentOutput : List Nat} {p : KernelJournal}
    (h0 : cfg.trustedImageId ≠ 0) (hp : parseJournal journal = .ok p)
    (ho : oracle sealB cfg.trustedImageId (sha256 journal) = true)
    (hpv : p.protocolVersion = PROTOCOL_VERSION)
    (hkv : p.kernelVersion = KERNEL_VERSION)
    (hag : p.agentId = cfg.boundAgentId)
    (hle : p.executionNonce ≤ st.lastExecutionNonce) :
    vaultChecks cfg oracle st journal sealB agentOutput =
      .error .StaleOrReplayedNonce := by
  unfold vaultChecks verifyAndParseWithImageId
  rw [if_neg h0, hp]
  simp [ho, hpv, hkv, hag, hle]

theorem vaultChecks_failStatus {cfg : VaultConfig} {oracle : ProofOracle}
    {st : VaultState} {journal sealB agentOutput : List Nat} {p : KernelJournal}
    (h0 : cfg.trustedImageId ≠ 0) (hp : parseJournal journal = .ok p)
    (ho : oracle sealB cfg.trustedImageId (sha256 journal) = true)
    (hpv : p.protocolVersion = PROTOCOL_VERSION)
    (hkv : p.kernelVersion = KERNEL_VERSION)
    (hag : p.agentId = cfg.boundAgentId)
    (hgt : st.lastExecutionNonce < p.executionNonce)
    (hgap : p.executionNonce ≤ st.lastExecutionNonce + 100)
    (hst : p.executionStatus ≠ 1) :
    vaultChecks cfg oracle st journal sealB agentOutput =
      .error .AgentReportedFailure := by
  have hnle : ¬ p.executionNonce ≤ st.lastExecutionNonce := by omega
  have hngap : ¬ st.lastExecutionNonce + 100 < p.executionNonce := by omega
  unfold vaultChecks verifyAndParseWithImageId
  rw [if_neg h0, hp]
  simp [ho, hpv, hkv, hag, hnle, hngap, hst]

theorem runActions_ok_nonce (callOk transferOk : ActionV1 → Bool) :
    ∀ (acts : List ActionV1) (st st2 : VaultState),
      runActions callOk transferOk st acts = .ok st2 →
      st2.lastExecutionNonce = st.lastExecutionNonce := by
  intro acts
  induction acts with
  | nil =>
    intro st st2 h
    cases h
    rfl
  | cons a rest ih =>
    intro st st2 h
    unfold runActions at h
    split at h
    next u heq =>
      have h2 := ih { st with log := st.log ++ [a] } st2 h
      simpa using h2
    next e heq => cases h

theorem runActions_err (callOk transferOk : ActionV1 → Bool) :
    ∀ (acts : List ActionV1) (st : VaultState),
      (∃ a ∈ acts, ∃ e, vaultDispatchAction callOk transferOk a = .error e) →
      ∃ e2, runActions callOk transferOk st acts = .error e2 := by
  intro acts
  induction acts with
  | nil =>
    intro st h
    simp at h
  | cons a rest ih =>
    rintro st ⟨b, hb, e, he⟩
    rcases List.mem_cons.mp hb with rfl | hbr
    · refine ⟨e, ?_⟩
      unfold runActions
      rw [he]
    · cases hA : vaultDispatchAction callOk transferOk a with
      | error e3 =>
        refine ⟨e3, ?_⟩
        unfold runActions
        rw [hA]
      | ok u =>
        obtain ⟨e2, h2⟩ := ih { st with log := st.log ++ [a] } ⟨b, hbr, e, he⟩
        refine ⟨e2, ?_⟩
        unfold runActions
        rw [hA, h2]

theorem vaultExecute_ok_inv {cfg : VaultConfig} {oracle : ProofOracle}
    {callOk transferOk : ActionV1 → Bool} {st st2 : VaultState}
    {journal sealB agentOutput : List Nat}
    (h : vaultExecute cfg oracle callOk transferOk st journal sealB agentOutput =
      .ok st2) :
    ∃ p acts, vaultChecks cfg oracle st journal sealB agentOutput = .ok p ∧
      parseActions agentOutput = .ok acts ∧
      runActions callOk transferOk
        { st with lastExecutionNonce := p.executionNonce } acts = .ok st2 ∧
      st2.lastExecutionNonce = p.executionNonce := by
  unfold vaultExecute at h
  split at h
  next e heq => cases h
  next p heq =>
    split at h
    next e2 heqa => cases h
    next acts heqa =>
      exact ⟨p, acts, heq, heqa, h, runActions_ok_nonce _ _ _ _ _ h⟩

theorem vaultTransact_eq_of_no_ok {cfg : VaultConfig} {oracle : ProofOracle}
    {callOk transferOk : ActionV1 → Bool} {st : VaultState}
    {journal sealB agentOutput : List Nat}
    (h : ∀ st2, vaultExecute cfg oracle callOk transferOk st journal sealB
      agentOutput ≠ .ok st2) :
    vaultTransact cfg oracle callOk transferOk st journal sealB agentOutput = st := by
  unfold vaultTransact
  split
  next st2 heq => exact absurd heq (h st2)
  next e heq => rfl

/-- The Execution Orchestrator single pass (spec section 4.3, with the journal
assembly rules of the journal-format document): validate the input versions
and payload bound, run the agent on the opaque inputs, gate the proposed
actions through the constraint policy, and emit the journal. On success the
action commitment is the digest of the encoded action list; on a constraint
violation the actions are discarded, the commitment is forced to the digest
of the encoded empty action list and the status is Failure (0x02). -/
def runKernel (agent : List Nat → List ActionV1) (policy : List ActionV1 → Bool)
    (input : KernelInput) : Option KernelJournal :=
  if input.protocolVersion = PROTOCOL_VERSION ∧
      input.kernelVersion = KERNEL_VERSION ∧
      input.agentInputs.length ≤ MAX_AGENT_INPUT_BYTES then
    some {
      protocolVersion := input.protocolVersion
      kernelVersion := input.kernelVersion
      agentId := input.agentId
      agentCodeHash := input.agentCodeHash
      constraintSetHash := input.constraintSetHash
      inputRoot := input.inputRoot
      executionNonce := input.executionNonce
      inputCommitment := sha256 (encodeKernelInput input)
      actionCommitment :=
        if policy (agent input.agentInputs) then
          sha256 (encodeAgentOutput (agent input.agentInputs))
        else sha256 (encodeAgentOutput [])
      executionStatus := if policy (agent input.agentInputs) then 1 else 2 }
  else none

instance {e a : Type} [DecidableEq e] [DecidableEq a] : DecidableEq (Except e a)
  | .error x, .error y =>
    if h : x = y then .isTrue (by rw [h]) else .isFalse (by simp [h])
  | .error _, .ok _ => .isFalse (by simp)
  | .ok _, .error _ => .isFalse (by simp)
  | .ok x, .ok y =>
    if h : x = y then .isTrue (by rw [h]) else .isFalse (by simp [h])

/-- A 32-byte all-zero identifier used in concrete instantiations. -/
def zid : List Nat := List.replicate 32 0

/-- A valid Success journal bound to the zero agent id, nonce 5, with the
empty-output action commitment. -/
def j1 : KernelJournal :=
  { protocolVersion := 1, kernelVersion := 1, agentId := zid, agentCodeHash := zid,
    constraintSetHash := zid, inputRoot := zid, executionNonce := 5,
    inputCommitment := zid, actionCommitment := EMPTY_OUTPUT_COMMITMENT,
    executionStatus := 1 }

/-- The same journal with a Failure status byte. -/
def j2 : KernelJournal := { j1 with executionStatus := 2 }

/-- A concrete Call action with empty payload. -/
def a1 : ActionV1 := ⟨ACTION_TYPE_CALL, zid, []⟩

/-- A concrete action with the NoOp tag, unhandled by the vault dispatcher. -/
def a4 : ActionV1 := ⟨ACTION_TYPE_NO_OP, zid, []⟩

/-- A Success journal committing to the single-Call action list. -/
def j6 : KernelJournal :=
  { j1 with actionCommitment := sha256 (encodeAgentOutput [a1]) }

/-- A valid kernel input with empty agent payload and nonce 5. -/
def inp0 : KernelInput := ⟨1, 1, zid, zid, zid, zid, 5, []⟩

/-- The journal emitted for `inp0` when the constraint policy rejects. -/
def j2f : KernelJournal :=
  { protocolVersion := 1, kernelVersion := 1, agentId := zid, agentCodeHash := zid,
    constraintSetHash := zid, inputRoot := zid, executionNonce := 5,
    inputCommitment := sha256 (encodeKernelInput inp0),
    actionCommitment := EMPTY_OUTPUT_COMMITMENT, executionStatus := 2 }

/-- An always-accepting proof oracle. -/
def oracleT : ProofOracle := fun _ _ _ => true

/-- An environment in which every external call and transfer succeeds. -/
def allOk : ActionV1 → Bool := fun _ => true

/-- An environment in which every external call fails. -/
def allFail : ActionV1 → Bool := fun _ => false

/-- A vault pinned to image id 1 and bound to the zero agent id. -/
def cfg1 : VaultConfig := ⟨1, zid⟩

/-- A vault state with last executed nonce 4 and no effects yet. -/
def st0 : VaultState := ⟨4, []⟩

/-- C1: the encoded KernelJournal is always exactly 209 bytes, laid out at
the fixed offsets (each field is recovered at its offset by the parser), and
the verifier rejects any journal whose byte length is not 209 with
InvalidLength before any other check (the parser has no other failure, and
the verifier rejects a wrong length for every oracle, i.e. before proof
verification). -/
theorem journal_wire_format :
    (∀ j : KernelJournal, wfJournal j →
        (encodeJournal j).length = 209 ∧ parseJournal (encodeJournal j) = .ok j) ∧
    (∀ bs : List Nat, bs.length ≠ 209 →
        parseJournal bs = .error .InvalidLength) ∧
    (∀ (imageId : Nat) (bs sealB : List Nat) (oracle : ProofOracle),
        imageId ≠ 0 → bs.length ≠ 209 →
        verifyAndParseWithImageId imageId bs sealB oracle =
          .error .InvalidLength) := by
  refine ⟨fun j h => ⟨encodeJournal_length j h, parseJournal_encodeJournal j h⟩,
    parseJournal_invalidLength, ?_⟩
  intro img bs sB o h0 hlen
  unfold verifyAndParseWithImageId
  rw [if_neg h0, parseJournal_invalidLength bs hlen]

/-- Witness for C1 at the concrete journal `j1` and concrete wrong-length
byte strings. -/
theorem journal_wire_format_witness :
    wfJournal j1 ∧ (encodeJournal j1).length = 209 ∧
    parseJournal (encodeJournal j1) = .ok j1 ∧
    parseJournal [] = .error .InvalidLength ∧
    verifyAndParseWithImageId 1 [0] [] oracleT = .error .InvalidLength :=
  ⟨by decide, (journal_wire_format.1 j1 (by decide)).1,
   (journal_wire_format.1 j1 (by decide)).2,
   journal_wire_format.2.1 [] (by decide),
   journal_wire_format.2.2 1 [0] [] oracleT (by decide) (by decide)⟩

/-- C3: the canonical encoding of an empty ActionList is exactly the four
zero bytes, and its SHA-256 digest is the fixed protocol-wide empty-output
commitment constant df3f...1119 that verifiers may hardcode. -/
theorem empty_output_commitment_constant :
    encodeAgentOutput [] = [0, 0, 0, 0] ∧
    sha256 (encodeAgentOutput []) = EMPTY_OUTPUT_COMMITMENT :=
  ⟨encodeAgentOutput_nil, sha256_emptyOutput⟩

/-- C4: the vault accepts a submission only when the journal's
execution_nonce is strictly greater than lastExecutionNonce; after an
accepted submission lastExecutionNonce equals the accepted nonce, so
resubmitting the exact same accepted (journal, proof, actions) triple always
fails the nonce check with StaleOrReplayedNonce. -/
theorem vault_nonce_monotonic :
    ∀ (cfg : VaultConfig) (oracle : ProofOracle)
      (callOk transferOk : ActionV1 → Bool) (st st2 : VaultState)
      (journal sealB agentOutput : List Nat),
      vaultExecute cfg oracle callOk transferOk st journal sealB agentOutput =
        .ok st2 →
      ∃ p, parseJournal journal = .ok p ∧
        st.lastExecutionNonce < p.executionNonce ∧
        st2.lastExecutionNonce = p.executionNonce ∧
        vaultExecute cfg oracle callOk transferOk st2 journal sealB agentOutput =
          .error .StaleOrReplayedNonce := by
  intro cfg oracle co tr st st2 j sB out h
  obtain ⟨p, acts, hc, hpa, hr, hn2⟩ := vaultExecute_ok_inv h
  obtain ⟨h0, hp, ho, hpv, hkv, hag, hlt, hgap, hst, hcm⟩ := vaultChecks_ok_inv hc
  refine ⟨p, hp, hlt, hn2, ?_⟩
  have hstale := @vaultChecks_stale cfg oracle st2 j sB out p
    h0 hp ho hpv hkv hag (by omega)
  unfold vaultExecute
  rw [hstale]

/-- Witness for C4: the accepting run from nonce 4 with journal nonce 5,
followed by the rejected resubmission. -/
theorem vault_nonce_monotonic_witness :
    ∃ p, parseJournal (encodeJournal j1) = .ok p ∧
      st0.lastExecutionNonce < p.executionNonce ∧
      (⟨5, []⟩ : VaultState).lastExecutionNonce = p.executionNonce ∧
      vaultExecute cfg1 oracleT allOk allOk ⟨5, []⟩ (encodeJournal j1) []
        (encodeAgentOutput []) = .error .StaleOrReplayedNonce :=
  vault_nonce_monotonic cfg1 oracleT allOk allOk st0 ⟨5, []⟩ (encodeJournal j1)
    [] (encodeAgentOutput []) (by decide)

/-- C5: once every check passes, the state in which the actions run already
has lastExecutionNonce equal to the journal's execution_nonce, so a
reentrant call made from inside action execution with the same journal is
rejected with StaleOrReplayedNonce. -/
theorem nonce_updated_before_actions :
    ∀ (cfg : VaultConfig) (oracle : ProofOracle)
      (callOk transferOk : ActionV1 → Bool) (st : VaultState)
      (journal sealB agentOutput : List Nat) (p : KernelJournal),
      vaultChecks cfg oracle st journal sealB agentOutput = .ok p →
      ({ st with lastExecutionNonce := p.executionNonce } :
          VaultState).lastExecutionNonce = p.executionNonce ∧
      vaultExecute cfg oracle callOk transferOk
          { st with lastExecutionNonce := p.executionNonce }
          journal sealB agentOutput = .error .StaleOrReplayedNonce := by
  intro cfg oracle co tr st j sB out p hc
  obtain ⟨h0, hp, ho, hpv, hkv, hag, hlt, hgap, hst, hcm⟩ := vaultChecks_ok_inv hc
  refine ⟨rfl, ?_⟩
  have hstale := @vaultChecks_stale cfg oracle
    { st with lastExecutionNonce := p.executionNonce } j sB out p
    h0 hp ho hpv hkv hag (by simp)
  unfold vaultExecute
  rw [hstale]

/-- Witness for C5 at the concrete accepting configuration. -/
theorem nonce_updated_before_actions_witness :
    ({ st0 with lastExecutionNonce := j1.executionNonce } :
        VaultState).lastExecutionNonce = j1.executionNonce ∧
    vaultExecute cfg1 oracleT allOk allOk
        { st0 with lastExecutionNonce := j1.executionNonce }
        (encodeJournal j1) [] (encodeAgentOutput []) =
      .error .StaleOrReplayedNonce :=
  nonce_updated_before_actions cfg1 oracleT allOk allOk st0 (encodeJournal j1)
    [] (encodeAgentOutput []) j1 (by decide)

/-- C6: action execution is all-or-nothing per submission: if any action of
the decoded batch fails, the transaction reverts and the observable vault
state — effect log and lastExecutionNonce — is exactly the pre-submission
state. -/
theorem atomic_rollback :
    ∀ (cfg : VaultConfig) (oracle : ProofOracle)
      (callOk transferOk : ActionV1 → Bool) (st : VaultState)
      (journal sealB agentOutput : List Nat) (acts : List ActionV1),
      parseActions agentOutput = .ok acts →
      (∃ a ∈ acts, ∃ e, vaultDispatchAction callOk transferOk a = .error e) →
      vaultTransact cfg oracle callOk transferOk st journal sealB agentOutput =
        st := by
  intro cfg oracle co tr st j sB out acts hpa hex
  apply vaultTransact_eq_of_no_ok
  intro st2 hok
  obtain ⟨p, acts2, hc, hpa2, hr, _⟩ := vaultExecute_ok_inv hok
  rw [hpa] at hpa2
  cases hpa2
  obtain ⟨e2, he2⟩ := runActions_err co tr acts _ hex
  rw [he2] at hr
  cases hr

/-- Witness for C6: a single-Call batch whose call fails leaves the state
untouched. -/
theorem atomic_rollback_witness :
    vaultTransact cfg1 oracleT allFail allOk st0 (encodeJournal j6) []
      (encodeAgentOutput [a1]) = st0 :=
  atomic_rollback cfg1 oracleT allFail allOk st0 (encodeJournal j6) []
    (encodeAgentOutput [a1]) [a1] (by decide)
    ⟨a1, by decide, .CallFailed, by decide⟩

/-- C7: only journals with execution_status equal to the Success byte 0x01
can authorize action execution. A journal with any other status — Failure
0x02 or the reserved 0x00 — never validates: the execute call cannot return
ok, the transaction leaves the state unchanged, and when every earlier check
passes the revert reason is AgentReportedFailure. -/
theorem failure_status_rejected :
    ∀ (cfg : VaultConfig) (oracle : ProofOracle)
      (callOk transferOk : ActionV1 → Bool) (st : VaultState)
      (journal sealB agentOutput : List Nat) (p : KernelJournal),
      parseJournal journal = .ok p → p.executionStatus ≠ 1 →
      (∀ st2, vaultExecute cfg oracle callOk transferOk st journal sealB
          agentOutput ≠ .ok st2) ∧
      vaultTransact cfg oracle callOk transferOk st journal sealB agentOutput =
        st ∧
      (cfg.trustedImageId ≠ 0 →
        oracle sealB cfg.trustedImageId (sha256 journal) = true →
        p.protocolVersion = PROTOCOL_VERSION → p.kernelVersion = KERNEL_VERSION →
        p.agentId = cfg.boundAgentId →
        st.lastExecutionNonce < p.executionNonce →
        p.executionNonce ≤ st.lastExecutionNonce + 100 →
        vaultExecute cfg oracle callOk transferOk st journal sealB agentOutput =
          .error .AgentReportedFailure) := by
  intro cfg oracle co tr st j sB out p hp hstNe
  have hno : ∀ st2,
      vaultExecute cfg oracle co tr st j sB out ≠ .ok st2 := by
    intro st2 hok
    obtain ⟨p2, acts, hc, _, _, _⟩ := vaultExecute_ok_inv hok
    obtain ⟨_, hp2, _, _, _, _, _, _, hst2, _⟩ := vaultChecks_ok_inv hc
    rw [hp] at hp2
    cases hp2
    exact hstNe hst2
  refine ⟨hno, vaultTransact_eq_of_no_ok hno, ?_⟩
  intro h0 ho hpv hkv hag hlt hgap
  have hf := @vaultChecks_failStatus cfg oracle st j sB out p
    h0 hp ho hpv hkv hag hlt hgap hstNe
  unfold vaultExecute
  rw [hf]

/-- Witness for C7: the Failure journal `j2` is rejected with
AgentReportedFailure and leaves the state unchanged. -/
theorem failure_status_rejected_witness :
    vaultExecute cfg1 oracleT allOk allOk st0 (encodeJournal j2) []
      (encodeAgentOutput []) = .error .AgentReportedFailure ∧
    vaultTransact cfg1 oracleT allOk allOk st0 (encodeJournal j2) []
      (encodeAgentOutput []) = st0 := by
  have h := failure_status_rejected cfg1 oracleT allOk allOk st0
    (encodeJournal j2) [] (encodeAgentOutput []) j2 (by decide) (by decide)
  exact ⟨h.2.2 (by decide) rfl (by decide) (by decide) (by decide) (by decide)
    (by decide), h.2.1⟩

/-- C8: the canonical codec round-trips on every valid KernelInputV1, encode
is deterministic on logically equal inputs, and consequently encode is
injective on valid inputs. -/
theorem codec_roundtrip :
    (∀ x : KernelInput, wfInput x →
        decodeKernelInput (encodeKernelInput x) = .ok x) ∧
    (∀ x y : KernelInput, x = y → encodeKernelInput x = encodeKernelInput y) ∧
    (∀ x y : KernelInput, wfInput x → wfInput y →
        encodeKernelInput x = encodeKernelInput y → x = y) := by
  refine ⟨decodeKernelInput_encodeKernelInput, fun x y h => by rw [h], ?_⟩
  intro x y hx hy he
  have h1 := decodeKernelInput_encodeKernelInput x hx
  have h2 := decodeKernelInput_encodeKernelInput y hy
  rw [he] at h1
  rw [h1] at h2
  injection h2

/-- Witness for C8 at the concrete input `inp0`. -/
theorem codec_roundtrip_witness :
    wfInput inp0 ∧ decodeKernelInput (encodeKernelInput inp0) = .ok inp0 :=
  ⟨by decide, codec_roundtrip.1 inp0 (by decide)⟩

/-- C9: verifyAndParseWithImageId rejects a zero expected image id before
proof verification (it errors for every oracle), the vault constructor
refuses a zero trustedImageId, every constructed vault has a nonzero pinned
image id, and no verification can ever succeed against the zero image id. -/
theorem zero_image_id_never_verifies :
    (∀ (journal sealB : List Nat) (oracle : ProofOracle),
        verifyAndParseWithImageId 0 journal sealB oracle =
          .error .ZeroImageId) ∧
    (∀ agentId : List Nat, mkVault agentId 0 = .error .ZeroImageId) ∧
    (∀ (agentId : List Nat) (imageId : Nat) (cfg : VaultConfig),
        mkVault agentId imageId = .ok cfg → cfg.trustedImageId ≠ 0) ∧
    (∀ (imageId : Nat) (journal sealB : List Nat) (oracle : ProofOracle)
        (p : KernelJournal),
        verifyAndParseWithImageId imageId journal sealB oracle = .ok p →
        imageId ≠ 0) := by
  refine ⟨?_, ?_, ?_, ?_⟩
  · intro j sB o
    unfold verifyAndParseWithImageId
    rw [if_pos rfl]
  · intro aid
    unfold mkVault
    rw [if_pos rfl]
  · intro aid img cfg h
    unfold mkVault at h
    split at h
    next h0 => cases h
    next h0 =>
      cases h
      exact h0
  · intro img j sB o p h
    exact (verifyAndParse_ok_inv h).1

/-- Witness for C9 at concrete values: image id 0 is rejected everywhere,
and the verifying image id 1 is nonzero. -/
theorem zero_image_id_never_verifies_witness :
    verifyAndParseWithImageId 0 (encodeJournal j1) [] oracleT =
      .error .ZeroImageId ∧
    mkVault zid 0 = .error .ZeroImageId ∧
    cfg1.trustedImageId ≠ 0 ∧ (1 : Nat) ≠ 0 :=
  ⟨zero_image_id_never_verifies.1 (encodeJournal j1) [] oracleT,
   zero_image_id_never_verifies.2.1 zid,
   zero_image_id_never_verifies.2.2.1 zid 1 cfg1 (by decide),
   zero_image_id_never_verifies.2.2.2 1 (encodeJournal j1) [] oracleT j1
     (by decide)⟩

/-- C10: the vault action dispatcher reverts with UnknownActionType on every
decoded action whose type is neither Call (0x00000002) nor TransferERC20
(0x00000003), and a batch containing such an action has no observable
on-chain effect. -/
theorem unknown_action_type_reverts :
    ∀ (callOk transferOk : ActionV1 → Bool) (a : ActionV1),
      a.actionType ≠ ACTION_TYPE_CALL →
      a.actionType ≠ ACTION_TYPE_TRANSFER_ERC20 →
      vaultDispatchAction callOk transferOk a =
        .error (.UnknownActionType a.actionType) ∧
      (∀ (cfg : VaultConfig) (oracle : ProofOracle) (st : VaultState)
          (journal sealB agentOutput : List Nat) (acts : List ActionV1),
          parseActions agentOutput = .ok acts → a ∈ acts →
          vaultTransact cfg oracle callOk transferOk st journal sealB
            agentOutput = st) := by
  intro co tr a h2 h3
  have hd : vaultDispatchAction co tr a =
      .error (.UnknownActionType a.actionType) := by
    unfold vaultDispatchAction
    rw [if_neg h2, if_neg h3]
  refine ⟨hd, ?_⟩
  intro cfg o st j sB out acts hpa hmem
  apply vaultTransact_eq_of_no_ok
  intro st2 hok
  obtain ⟨p, acts2, hc, hpa2, hr, _⟩ := vaultExecute_ok_inv hok
  rw [hpa] at hpa2
  cases hpa2
  obtain ⟨e2, he2⟩ := runActions_err co tr acts _ ⟨a, hmem, _, hd⟩
  rw [he2] at hr
  cases hr

/-- Witness for C10: the NoOp-tagged action `a4` reverts the dispatcher and
a batch containing it leaves the state unchanged. -/
theorem unknown_action_type_reverts_witness :
    vaultDispatchAction allOk allOk a4 =
      .error (.UnknownActionType ACTION_TYPE_NO_OP) ∧
    vaultTransact cfg1 oracleT allOk allOk st0 (encodeJournal j1) []
      (encodeAgentOutput [a4]) = st0 := by
  have h := unknown_action_type_reverts allOk allOk a4 (by decide) (by decide)
  exact ⟨h.1, h.2 cfg1 oracleT st0 (encodeJournal j1) []
    (encodeAgentOutput [a4]) [a4] (by decide) (by decide)⟩

/-- Counterexample to C2 as stated: the claimed equivalence between a
Failure status and the empty-output action commitment fails on the journal
of a successful execution whose agent proposed an empty action list — there
the commitment is the empty-output constant while the status is Success. -/
theorem failure_sentinel_iff_counterexample :
    ¬ (∀ (agent : List Nat → List ActionV1) (policy : List ActionV1 → Bool)
        (input : KernelInput) (j : KernelJournal),
        runKernel agent policy input = some j →
        (j.executionStatus = 2 ↔
          j.actionCommitment = EMPTY_OUTPUT_COMMITMENT)) := by
  intro h
  have h1 : (runKernel (fun _ => []) (fun _ => true) inp0).map
      (fun j => (j.executionStatus, j.actionCommitment)) =
      some (1, EMPTY_OUTPUT_COMMITMENT) := by decide
  cases hrun : runKernel (fun _ => []) (fun _ => true) inp0 with
  | none =>
    rw [hrun] at h1
    cases h1
  | some j =>
    rw [hrun] at h1
    simp only [Option.map_some', Option.some.injEq, Prod.mk.injEq] at h1
    have hiff := h (fun _ => []) (fun _ => true) inp0 j hrun
    have h2 := hiff.mpr h1.2
    rw [h1.1] at h2
    cases h2

/-- C2 (amended): for every journal produced by an execution attempt, the
status is Failure exactly when the constraint policy rejected; every
constraint-violating execution yields a Failure status and the empty-output
commitment; a Failure status always carries the empty-output commitment;
and on success the commitment is the digest of the agent's real encoded
action list (which coincides with the empty-output constant exactly when the
successful action list is empty — the direction of the original equivalence
that fails). -/
theorem failure_sentinel :
    ∀ (agent : List Nat → List ActionV1) (policy : List ActionV1 → Bool)
      (input : KernelInput) (j : KernelJournal),
      runKernel agent policy input = some j →
      ((j.executionStatus = 2 ↔ policy (agent input.agentInputs) = false) ∧
       (j.executionStatus = 2 → j.actionCommitment = EMPTY_OUTPUT_COMMITMENT) ∧
       (policy (agent input.agentInputs) = false →
          j.executionStatus = 2 ∧
          j.actionCommitment = EMPTY_OUTPUT_COMMITMENT) ∧
       (policy (agent input.agentInputs) = true →
          j.executionStatus = 1 ∧
          j.actionCommitment =
            sha256 (encodeAgentOutput (agent input.agentInputs)))) := by
  intro agent policy input j h
  unfold runKernel at h
  split at h
  next hvalid =>
    cases h
    cases hpol : policy (agent input.agentInputs) <;>
      simp [hpol, sha256_emptyOutput]
  next hinvalid => cases h

/-- Witness for C2 (amended): a concrete constraint-violating run produces
the Failure status and the empty-output commitment. -/
theorem failure_sentinel_witness :
    j2f.executionStatus = 2 ∧
    j2f.actionCommitment = EMPTY_OUTPUT_COMMITMENT := by
  have h := failure_sentinel (fun _ => [a1]) (fun _ => false) inp0 j2f
    (by decide)
  exact h.2.2.1 rfl
